import Mathlib

set_option maxHeartbeats 1000000

/-!
Verification development for the recipe_vault Python API (`src/api/index.py`).

The file embeds, as executable Lean definitions:
  * the image header sniffer (`get_image_dimensions` body: PNG / GIF / JPEG
    branches, with the JPEG marker-scan loop),
  * the image validator (`validate_image`) with and without the `lru_cache`
    layer (the cache is made explicit as a most-recently-used-first
    association list of bounded size 100),
  * the per-field extractor (`extract_recipe_field`) over an abstract
    recipe-source whose capabilities may raise, and the record assembly
    (`get_recipe_details`),
  * the `/api/scraper` route's strict / wild-mode fallback control flow.

Byte buffers are `List Nat` (each entry a byte value), Python exceptions are
`Option` / `Except`, and the network is an explicit `fetch` function
`String → Option (List Nat)` (`none` models a raised/exhausted fetch).
-/

/-- `MIN_IMAGE_SIZE = 10000` from the source. -/
def MIN_IMAGE_SIZE : Nat := 10000

/-- `MIN_IMAGE_DIMENSION = 300` from the source. -/
def MIN_IMAGE_DIMENSION : Nat := 300

/-- Big-endian 32-bit read at offset `i` (`unpack('>LL', header[16:24])`). -/
def be32 (b : List Nat) (i : Nat) : Nat :=
  b.getD i 0 * 16777216 + b.getD (i + 1) 0 * 65536 + b.getD (i + 2) 0 * 256 + b.getD (i + 3) 0

/-- Little-endian 16-bit read at offset `i` (`unpack('<HH', header[6:10])`). -/
def le16 (b : List Nat) (i : Nat) : Nat :=
  b.getD i 0 + b.getD (i + 1) 0 * 256

/-- The 8-byte PNG magic `b'\211PNG\r\n\032\n'`. -/
def pngMagic : List Nat := [137, 80, 78, 71, 13, 10, 26, 10]

/-- The ASCII chunk tag `b'IHDR'`. -/
def ihdrTag : List Nat := [73, 72, 68, 82]

/-- `b'GIF87a'`. -/
def gif87 : List Nat := [71, 73, 70, 56, 55, 97]

/-- `b'GIF89a'`. -/
def gif89 : List Nat := [71, 73, 70, 56, 57, 97]

/-- The PNG branch guard: `header.startswith(b'\211PNG\r\n\032\n') and header[12:16] == b'IHDR'`. -/
def isPngSig (b : List Nat) : Bool :=
  b.take 8 == pngMagic && (b.drop 12).take 4 == ihdrTag

/-- The GIF branch guard: `header[:6] in (b'GIF87a', b'GIF89a')`. -/
def isGifSig (b : List Nat) : Bool :=
  b.take 6 == gif87 || b.take 6 == gif89

/-- The JPEG branch guard: `header.startswith(b'\xff\xd8')`. -/
def isJpegSig (b : List Nat) : Bool :=
  b.take 2 == [255, 216]

/-- One step of `byte = image.read(1); while ord(byte) == 0xff: byte = image.read(1)`
on the remaining bytes: returns the first non-`0xFF` byte and how many bytes were
consumed; `none` models `ord(b'')` raising at end of stream. -/
def firstNonFF : List Nat → Option (Nat × Nat)
  | [] => none
  | c :: rest =>
    if c = 255 then
      match firstNonFF rest with
      | some (t, k) => some (t, k + 1)
      | none => none
    else some (c, 1)

/-- The fill-byte skip of the JPEG scan, positioned at `pos` in buffer `b`:
returns the marker type byte and the stream position just after it. -/
def skipFF (b : List Nat) (pos : Nat) : Option (Nat × Nat) :=
  match firstNonFF (b.drop pos) with
  | some (t, k) => some (t, pos + k)
  | none => none

/-- `unpack('>H', image.read(2))` at position `pos`: big-endian 16-bit value and
the position after it; `none` models `struct.error` on a short read. -/
def read2BE (b : List Nat) (pos : Nat) : Option (Nat × Nat) :=
  match b.drop pos with
  | hi :: lo :: _ => some (hi * 256 + lo, pos + 2)
  | _ => none

/-- The stop condition of the marker scan: the loop
`while not 0xc0 <= ftype <= 0xcf or ftype in [0xc4, 0xc8, 0xcc]` exits exactly
when the type byte is in the Start-Of-Frame range 0xC0–0xCF and is none of
0xC4, 0xC8, 0xCC. -/
def isSOFtype (t : Nat) : Prop :=
  (192 ≤ t ∧ t ≤ 207) ∧ ¬(t = 196 ∨ t = 200 ∨ t = 204)

instance decIsSOFtype (t : Nat) : Decidable (isSOFtype t) := by
  unfold isSOFtype
  infer_instance

/-- The JPEG marker-scan loop of `get_image_dimensions`, fuel-indexed.  State
`(pos, size)` is the stream position after the previous length field and the
pending skip amount (`size` may be as small as `-2` when a length field holds
`0` or `1`); one iteration performs `image.seek(size, 1)`, the fill-byte skip,
the type-byte read and the length read, then either loops or — on a
Start-Of-Frame type — performs `image.seek(1, 1)` and reads height then width,
returning `(width, height)`.  `none` models any exception inside the scan
(caught by the source and turned into `(0, 0)`).  Fuel exhaustion also returns
`none`; `jpegLoopF_mono` and `jpegScan_fuel` below show the fuel used by
`jpegScan` is always sufficient, so this is a faithful rendering of the
unbounded loop. -/
def jpegLoopF (b : List Nat) : Nat → Nat → Int → Option (Nat × Nat)
  | 0, _, _ => none
  | fuel + 1, pos, size =>
    let target : Int := (pos : Int) + size
    if target < 0 then none
    else
      match skipFF b target.toNat with
      | none => none
      | some (ftype, p1) =>
        match read2BE b p1 with
        | none => none
        | some (len2, p2) =>
          if isSOFtype ftype then
            match read2BE b (p2 + 1), read2BE b (p2 + 3) with
            | some (h, _), some (w, _) => some (w, h)
            | _, _ => none
          else
            jpegLoopF b fuel p2 ((len2 : Int) - 2)

/-- The JPEG branch of `get_image_dimensions`: run the marker scan from the
start of the buffer with initial state `pos = 0`, `size = 2`. -/
def jpegScan (b : List Nat) : Option (Nat × Nat) :=
  jpegLoopF b (b.length + 2) 0 2

/-- The header sniffer: the body of `get_image_dimensions` from
`header = image.read(24)` on.  Returns `(0, 0)` for short or unrecognized
headers and for any JPEG scan failure. -/
def sniffHeader (b : List Nat) : Nat × Nat :=
  if b.length < 24 then (0, 0)
  else if isPngSig b then (be32 b 16, be32 b 20)
  else if isGifSig b then (le16 b 6, le16 b 8)
  else if isJpegSig b then
    match jpegScan b with
    | some wh => wh
    | none => (0, 0)
  else (0, 0)

/-- The byte-size gate of `get_image_dimensions`, parametrized by the sniffing
stage so that "the sniffer is not consulted below the threshold" is expressible:
`if len(image.getvalue()) < MIN_IMAGE_SIZE: return (0, 0)`. -/
def dims_of_content (sniff : List Nat → Nat × Nat) (content : List Nat) : Nat × Nat :=
  if content.length < MIN_IMAGE_SIZE then (0, 0) else sniff content

/-- The body of `get_image_dimensions` (everything under the `lru_cache`
decorator): fetch, size gate, header sniff; the outer `try/except` returning
`(0, 0)` is the `none` branch of the fetch. -/
def get_image_dimensions_compute (fetch : String → Option (List Nat)) (url : String) : Nat × Nat :=
  match fetch url with
  | none => (0, 0)
  | some content => dims_of_content sniffHeader content

/-- `validate_image` on a fresh computation (no cache entry for the URL):
`if not image_url: return False` then the dimension thresholds. -/
def validate_image (fetch : String → Option (List Nat)) (image_url : Option String) : Bool :=
  match image_url with
  | none => false
  | some u =>
    if u = "" then false
    else
      let wh := get_image_dimensions_compute fetch u
      decide (MIN_IMAGE_DIMENSION ≤ wh.1) && decide (MIN_IMAGE_DIMENSION ≤ wh.2)

/-- The `lru_cache(maxsize=100)` state on `get_image_dimensions`:
URL-keyed dimensions, most-recently-used first. -/
def DimCache : Type := List (String × (Nat × Nat))

/-- Cache lookup by URL. -/
def cacheGet (c : DimCache) (u : String) : Option (Nat × Nat) :=
  ((c : List (String × (Nat × Nat))).find? fun p => p.1 == u).map Prod.snd

/-- On a hit `lru_cache` marks the entry most recently used. -/
def cacheTouch (c : DimCache) (u : String) (d : Nat × Nat) : DimCache :=
  (u, d) :: (c : List (String × (Nat × Nat))).filter fun p => !(p.1 == u)

/-- `get_image_dimensions` with its `lru_cache(maxsize=100)` made explicit:
returns the dimensions, the new cache state, and whether a network fetch was
performed.  On a miss the computed value — success or `(0, 0)` sentinel alike —
is inserted most-recently-used and the least recently used entry beyond
capacity 100 is evicted. -/
def get_image_dimensions (fetch : String → Option (List Nat)) (c : DimCache) (u : String) :
    (Nat × Nat) × DimCache × Bool :=
  match cacheGet c u with
  | some d => (d, cacheTouch c u d, false)
  | none =>
    let d := get_image_dimensions_compute fetch u
    (d, ((u, d) :: (c : List (String × (Nat × Nat)))).take 100, true)

/-- `validate_image` with the cache threaded through: result, new cache, and
whether a network fetch happened. -/
def validate_image_cached (fetch : String → Option (List Nat)) (c : DimCache)
    (image_url : Option String) : Bool × DimCache × Bool :=
  match image_url with
  | none => (false, c, false)
  | some u =>
    if u = "" then (false, c, false)
    else
      let r := get_image_dimensions fetch c u
      (decide (MIN_IMAGE_DIMENSION ≤ r.1.1) && decide (MIN_IMAGE_DIMENSION ≤ r.1.2),
        r.2.1, r.2.2)

/-- An element of a Python sequence returned by a capability: a string, or a
non-string value (on which `v.strip()` raises `AttributeError`). -/
inductive PyItem where
  | str (s : String)
  | nonStr
  deriving DecidableEq

/-- A Python value returned by a capability: a string, a list, or anything
else (neither `isinstance` check fires on it). -/
inductive PyValue where
  | str (s : String)
  | list (xs : List PyItem)
  | other
  deriving DecidableEq

/-- The outcome of invoking one capability `getattr(scraper, field_name)()`:
either an exception or a returned value. -/
inductive CapOutcome where
  | raises
  | returns (v : PyValue)
  deriving DecidableEq

/-- `not value.strip()` for a Python string: true iff every character is
whitespace (in particular for the empty string). -/
def pyBlank (s : String) : Bool :=
  s.data.all fun c => c.isWhitespace

/-- `any(v.strip() for v in value)`: evaluated lazily left to right, stopping
at the first element whose stripped form is non-empty; raises (`.error`) at the
first non-string element reached. -/
def anyNonBlank : List PyItem → Except Unit Bool
  | [] => Except.ok false
  | PyItem.str s :: rest => if pyBlank s then anyNonBlank rest else Except.ok true
  | PyItem.nonStr :: _ => Except.error ()

/-- `extract_recipe_field`: the capability outcome normalized to
`Option PyValue`; every exception — from the call itself or from the
normalization — is caught and becomes `none`. -/
def extract_recipe_field : CapOutcome → Option PyValue
  | CapOutcome.raises => none
  | CapOutcome.returns (PyValue.str s) =>
    if pyBlank s then none else some (PyValue.str s)
  | CapOutcome.returns (PyValue.list xs) =>
    match anyNonBlank xs with
    | Except.ok true => some (PyValue.list xs)
    | Except.ok false => none
    | Except.error _ => none
  | CapOutcome.returns PyValue.other => some PyValue.other

/-- The opaque recipe-source object: the four capability outcomes. -/
structure Scraper where
  title : CapOutcome
  ingredients : CapOutcome
  instructions : CapOutcome
  image : CapOutcome

/-- Python truthiness of an extracted field (`if image_url`,
`if image_future and ...`). -/
def pyTruthy : Option PyValue → Bool
  | none => false
  | some (PyValue.str s) => !(s == "")
  | some (PyValue.list xs) => !(xs == [])
  | some PyValue.other => true

/-- The assembled output record of `get_recipe_details`. -/
structure RecipeRecord where
  name : Option PyValue
  ingredients : Option PyValue
  instructions : Option PyValue
  imageUrl : Option PyValue
  deriving DecidableEq

/-- `get_recipe_details`: extract the image field, validate it when truthy
(the background future, joined before assembly), extract the three text
fields, and keep `imageUrl` only when validation reported true.  `validate`
abstracts `validate_image` together with its network environment. -/
def get_recipe_details (validate : PyValue → Bool) (sc : Scraper) : RecipeRecord :=
  let image_url := extract_recipe_field sc.image
  let validated :=
    match image_url with
    | some v => if pyTruthy image_url then validate v else false
    | none => false
  { name := extract_recipe_field sc.title
    ingredients := extract_recipe_field sc.ingredients
    instructions := extract_recipe_field sc.instructions
    imageUrl := if validated then image_url else none }

/-- `leadsWith n l`: `l` starts with `n` (character lists). -/
def leadsWith : List Char → List Char → Bool
  | [], _ => true
  | _ :: _, [] => false
  | a :: as, b :: bs => a == b && leadsWith as bs

/-- `hasSub n l`: some suffix of `l` starts with `n`. -/
def hasSub (n : List Char) : List Char → Bool
  | [] => leadsWith n []
  | c :: cs => leadsWith n (c :: cs) || hasSub n cs

/-- Python's `needle in haystack` on strings. -/
def pyIn (needle hay : String) : Bool :=
  hasSub needle.toList hay.toList

/-- The `/api/scraper` route body for a present `url`: try `scrape_me(url)`;
on an exception whose message contains `"not supported"`, retry exactly once
with `wild_mode=True`; any other exception, or a failing retry, is returned as
an error response (`Except.error` models the JSON error + HTTP 500).
`strict` and `wild` are the outcomes of the two construction attempts. -/
def scraper_route (validate : PyValue → Bool) (strict wild : Except String Scraper) :
    Except String RecipeRecord :=
  match strict with
  | Except.ok sc => Except.ok (get_recipe_details validate sc)
  | Except.error e =>
    if pyIn "not supported" e then
      match wild with
      | Except.ok sc => Except.ok (get_recipe_details validate sc)
      | Except.error e2 => Except.error ("Failed with wild_mode: " ++ e2)
    else Except.error e

/-- Modelled from the spec's words, for comparison with `jpegLoopF` only: the
marker scan as claim C1 states it, stopping at the first marker whose type
byte lies anywhere in 0xC0–0xCF (no exclusions). -/
def jpegLoopSpecF (b : List Nat) : Nat → Nat → Int → Option (Nat × Nat)
  | 0, _, _ => none
  | fuel + 1, pos, size =>
    let target : Int := (pos : Int) + size
    if target < 0 then none
    else
      match skipFF b target.toNat with
      | none => none
      | some (ftype, p1) =>
        match read2BE b p1 with
        | none => none
        | some (len2, p2) =>
          if 192 ≤ ftype ∧ ftype ≤ 207 then
            match read2BE b (p2 + 1), read2BE b (p2 + 3) with
            | some (h, _), some (w, _) => some (w, h)
            | _, _ => none
          else
            jpegLoopSpecF b fuel p2 ((len2 : Int) - 2)

/-- The claim-C1 scan applied the way `jpegScan` is. -/
def jpegScanSpec (b : List Nat) : Option (Nat × Nat) :=
  jpegLoopSpecF b (b.length + 2) 0 2

/-- Marker segment bytes: `0xFF`, type byte, big-endian length (payload + 2),
payload. -/
def segBytes (t : Nat) (payload : List Nat) : List Nat :=
  255 :: t :: ((payload.length + 2) / 256) :: ((payload.length + 2) % 256) :: payload

/-- Concatenated marker segments. -/
def segsBytes : List (Nat × List Nat) → List Nat
  | [] => []
  | (t, p) :: rest => segBytes t p ++ segsBytes rest

/-! ### Bounds for the JPEG scan reads -/

lemma firstNonFF_bounds (l : List Nat) (t k : Nat) (h : firstNonFF l = some (t, k)) :
    1 ≤ k ∧ k ≤ l.length := by
  induction l generalizing t k with
  | nil => simp [firstNonFF] at h
  | cons c rest ih =>
    rw [firstNonFF] at h
    by_cases hc : c = 255
    · rw [if_pos hc] at h
      cases hr : firstNonFF rest with
      | none => rw [hr] at h; cases h
      | some tk =>
        obtain ⟨t1, k1⟩ := tk
        rw [hr] at h
        have hik := ih t1 k1 hr
        simp only [Option.some.injEq, Prod.mk.injEq] at h
        simp only [List.length_cons]
        omega
    · rw [if_neg hc] at h
      simp only [Option.some.injEq, Prod.mk.injEq] at h
      simp only [List.length_cons]
      omega

lemma skipFF_bounds (b : List Nat) (pos t p1 : Nat) (h : skipFF b pos = some (t, p1)) :
    pos < b.length ∧ pos + 1 ≤ p1 ∧ p1 ≤ b.length := by
  unfold skipFF at h
  cases hf : firstNonFF (b.drop pos) with
  | none => rw [hf] at h; cases h
  | some tk =>
    obtain ⟨t1, k⟩ := tk
    rw [hf] at h
    have hb := firstNonFF_bounds _ _ _ hf
    rw [List.length_drop] at hb
    simp only [Option.some.injEq, Prod.mk.injEq] at h
    omega

lemma read2BE_bounds (b : List Nat) (pos v p2 : Nat) (h : read2BE b pos = some (v, p2)) :
    p2 = pos + 2 ∧ pos + 2 ≤ b.length := by
  unfold read2BE at h
  cases hd : b.drop pos with
  | nil => rw [hd] at h; cases h
  | cons x rest =>
    cases rest with
    | nil => rw [hd] at h; cases h
    | cons y r2 =>
      rw [hd] at h
      have hlen : (b.drop pos).length = b.length - pos := List.length_drop pos b
      rw [hd] at hlen
      simp only [List.length_cons] at hlen
      simp only [Option.some.injEq, Prod.mk.injEq] at h
      omega

/-! ### The fuel used by `jpegScan` is always sufficient -/

lemma jpegLoopF_out (b : List Nat) (fuel pos : Nat) (size : Int) (hs : -2 ≤ size)
    (hp : (b.length : Int) ≤ (pos : Int) + size) : jpegLoopF b fuel pos size = none := by
  cases fuel with
  | zero => rfl
  | succ n =>
    rw [jpegLoopF]
    have ht : ¬((pos : Int) + size < 0) := by omega
    rw [if_neg ht]
    have hnil : b.drop ((pos : Int) + size).toNat = [] := by
      apply List.drop_eq_nil_of_le
      omega
    unfold skipFF
    rw [hnil]
    rfl

lemma jpegLoopF_mono (b : List Nat) :
    ∀ (f1 f2 pos : Nat) (size : Int), -2 ≤ size →
      b.length + 2 ≤ pos + f1 → b.length + 2 ≤ pos + f2 →
      jpegLoopF b f1 pos size = jpegLoopF b f2 pos size := by
  intro f1
  induction f1 with
  | zero =>
    intro f2 pos size hs h1 h2
    rw [show jpegLoopF b 0 pos size = none from rfl,
      jpegLoopF_out b f2 pos size hs (by omega)]
  | succ n ih =>
    intro f2 pos size hs h1 h2
    cases f2 with
    | zero =>
      rw [jpegLoopF_out b (n + 1) pos size hs (by omega),
        show jpegLoopF b 0 pos size = none from rfl]
    | succ m =>
      by_cases ht : ((pos : Int) + size) < 0
      · rw [jpegLoopF, jpegLoopF]
        simp only [if_pos ht]
      · rw [jpegLoopF, jpegLoopF]
        simp only [if_neg ht]
        cases hskip : skipFF b ((pos : Int) + size).toNat with
        | none => rfl
        | some tp =>
          obtain ⟨ftype, p1⟩ := tp
          simp only []
          cases hread : read2BE b p1 with
          | none => rfl
          | some vp =>
            obtain ⟨len2, p2⟩ := vp
            by_cases hsof : isSOFtype ftype
            · simp only [if_pos hsof]
            · simp only [if_neg hsof]
              have hb1 := skipFF_bounds b _ _ _ hskip
              have hb2 := read2BE_bounds b _ _ _ hread
              exact ih m p2 ((len2 : Int) - 2) (by omega) (by omega) (by omega)

lemma jpegScan_fuel (b : List Nat) (extra : Nat) :
    jpegLoopF b (b.length + 2 + extra) 0 2 = jpegScan b := by
  unfold jpegScan
  apply jpegLoopF_mono b _ _ 0 2 (by omega) (by omega) (by omega)

/-- C7: the Sniffer is total: the embedded marker scan is fuel-insensitive at
`jpegScan`'s fuel (the loop terminates — each iteration advances the stream
position even when the computed skip offset is `-2` — and malformed reads end
the scan with the `(0, 0)` outcome rather than an exception), and every buffer
shorter than 24 bytes, or whose signature matches none of PNG/GIF/JPEG,
yields `(0, 0)`. -/
theorem C7_sniffer_total (b : List Nat) (extra : Nat) :
    ((b.length < 24 ∨ (isPngSig b = false ∧ isGifSig b = false ∧ isJpegSig b = false)) →
      sniffHeader b = (0, 0)) ∧
    jpegLoopF b (b.length + 2 + extra) 0 2 = jpegScan b := by
  constructor
  · intro h
    unfold sniffHeader
    rcases h with hlen | ⟨hp, hg, hj⟩
    · rw [if_pos hlen]
    · by_cases hlen : b.length < 24
      · rw [if_pos hlen]
      · rw [if_neg hlen, if_neg (by simp [hp]), if_neg (by simp [hg]), if_neg (by simp [hj])]
  · exact jpegScan_fuel b extra

/-- Witness for C7 at a concrete malformed buffer. -/
theorem C7_sniffer_total_witness :
    sniffHeader [1, 2, 3] = (0, 0) ∧ jpegLoopF [1, 2, 3] (3 + 2 + 5) 0 2 = jpegScan [1, 2, 3] := by
  have h := C7_sniffer_total [1, 2, 3] 5
  exact ⟨h.1 (Or.inl (by decide)), h.2⟩

/-- C4: on any buffer of at least 24 bytes carrying a well-formed PNG header
(PNG magic and IHDR tag), the Sniffer returns exactly the big-endian 32-bit
width and height at offsets 16 and 20; on a well-formed GIF header
(`GIF87a`/`GIF89a`), exactly the little-endian 16-bit width and height at
offsets 6 and 8. -/
theorem C4_png_gif_exact (b : List Nat) (hlen : 24 ≤ b.length) :
    ((b.take 8 = pngMagic ∧ (b.drop 12).take 4 = ihdrTag) →
      sniffHeader b = (be32 b 16, be32 b 20)) ∧
    ((b.take 6 = gif87 ∨ b.take 6 = gif89) →
      sniffHeader b = (le16 b 6, le16 b 8)) := by
  constructor
  · rintro ⟨h1, h2⟩
    unfold sniffHeader
    rw [if_neg (by omega), if_pos (by simp [isPngSig, h1, h2])]
  · intro h
    have hpng : ¬ (isPngSig b = true) := by
      intro hp
      simp only [isPngSig, Bool.and_eq_true, beq_iff_eq] at hp
      have h6 : b.take 6 = [137, 80, 78, 71, 13, 10] := by
        have := congrArg (List.take 6) hp.1
        simpa [List.take_take, pngMagic] using this
      rcases h with h | h <;> rw [h6] at h <;> simp [gif87, gif89] at h
    unfold sniffHeader
    rw [if_neg (by omega), if_neg hpng,
      if_pos (show isGifSig b = true by
        rcases h with h | h <;> simp [isGifSig, h])]

/-- Witness for C4: a concrete 24-byte PNG header (400×600) and a concrete
24-byte GIF header (320×200). -/
theorem C4_png_gif_exact_witness :
    sniffHeader [137, 80, 78, 71, 13, 10, 26, 10, 0, 0, 0, 13,
        73, 72, 68, 82, 0, 0, 1, 144, 0, 0, 2, 88] = (400, 600) ∧
    sniffHeader [71, 73, 70, 56, 57, 97, 64, 1, 200, 0,
        0, 0, 0, 0, 0, 0, 0, 0, 0, 0, 0, 0, 0, 0] = (320, 200) := by
  constructor
  · exact ((C4_png_gif_exact _ (by decide)).1 (by decide)).trans (by decide)
  · exact ((C4_png_gif_exact _ (by decide)).2 (Or.inr (by decide))).trans (by decide)

/-- C3: for a present URL whose fetch succeeds with bytes `b`, the Validator
returns true iff the byte length meets `MIN_IMAGE_SIZE` and both sniffed
dimensions meet `MIN_IMAGE_DIMENSION`; below the byte threshold the result is
false with the sniffing stage never consulted (the outcome is `(0, 0)` for
every sniffing function). -/
theorem C3_validator_thresholds (fetch : String → Option (List Nat)) (url : String)
    (b : List Nat) (hu : url ≠ "") (hf : fetch url = some b) :
    (validate_image fetch (some url) = true ↔
      (MIN_IMAGE_SIZE ≤ b.length ∧ MIN_IMAGE_DIMENSION ≤ (sniffHeader b).1 ∧
        MIN_IMAGE_DIMENSION ≤ (sniffHeader b).2)) ∧
    (b.length < MIN_IMAGE_SIZE →
      validate_image fetch (some url) = false ∧
        ∀ sniff : List Nat → Nat × Nat, dims_of_content sniff b = (0, 0)) := by
  have hv : validate_image fetch (some url) =
      (decide (MIN_IMAGE_DIMENSION ≤ (dims_of_content sniffHeader b).1) &&
        decide (MIN_IMAGE_DIMENSION ≤ (dims_of_content sniffHeader b).2)) := by
    simp only [validate_image, get_image_dimensions_compute]
    rw [if_neg hu]
    simp only [hf]
  constructor
  · rw [hv]
    unfold dims_of_content
    by_cases hlen : b.length < MIN_IMAGE_SIZE
    · rw [if_pos hlen]
      simp only [Bool.and_eq_true, decide_eq_true_eq]
      constructor
      · intro h
        exact absurd h.1 (by simp [MIN_IMAGE_DIMENSION])
      · intro h
        omega
    · rw [if_neg hlen]
      simp only [Bool.and_eq_true, decide_eq_true_eq]
      constructor
      · intro h
        exact ⟨by omega, h.1, h.2⟩
      · intro h
        exact ⟨h.2.1, h.2.2⟩
  · intro hlen
    constructor
    · rw [hv]
      unfold dims_of_content
      rw [if_pos hlen]
      simp [MIN_IMAGE_DIMENSION]
    · intro sniff
      unfold dims_of_content
      rw [if_pos hlen]

/-- Witness for C3 at a concrete too-small fetch result. -/
theorem C3_validator_thresholds_witness :
    validate_image (fun _ => some [1, 2, 3]) (some "http://img") = false ∧
    ∀ sniff : List Nat → Nat × Nat, dims_of_content sniff [1, 2, 3] = (0, 0) :=
  (C3_validator_thresholds (fun _ => some [1, 2, 3]) "http://img" [1, 2, 3]
    (by decide) rfl).2 (by decide)

/-- C6: the Validator fails closed: it is false on an absent URL (`None` or
the empty string), and false when the fetch raises (exhausted retries,
transport failure) — the exception is converted, not propagated. -/
theorem C6_fail_closed (fetch : String → Option (List Nat)) (image_url : Option String)
    (h : image_url = none ∨ image_url = some "" ∨
      ∃ u, image_url = some u ∧ fetch u = none) :
    validate_image fetch image_url = false := by
  rcases h with h | h | ⟨u, hu, hf⟩
  · rw [h]; rfl
  · rw [h]; rfl
  · rw [hu]
    simp only [validate_image, get_image_dimensions_compute]
    by_cases he : u = ""
    · rw [if_pos he]
    · rw [if_neg he]
      simp only [hf]
      decide

/-- Witness for C6 at a concrete failing fetch. -/
theorem C6_fail_closed_witness :
    validate_image (fun _ => none) (some "http://img") = false :=
  C6_fail_closed (fun _ => none) (some "http://img")
    (Or.inr (Or.inr ⟨"http://img", rfl, rfl⟩))

/-! ### Cache layer lemmas -/

lemma cacheGet_touch (c : DimCache) (u : String) (d : Nat × Nat) :
    cacheGet (cacheTouch c u d) u = some d := by
  unfold cacheGet cacheTouch
  rw [List.find?_cons_of_pos _ (by simp)]
  rfl

lemma cacheGet_insert (c : DimCache) (u : String) (d : Nat × Nat) :
    cacheGet (((u, d) :: (c : List (String × (Nat × Nat)))).take 100) u = some d := by
  unfold cacheGet
  rw [show (100 : Nat) = 99 + 1 from rfl, List.take_succ_cons,
    List.find?_cons_of_pos _ (by simp)]
  rfl

lemma gid_hit (fetch : String → Option (List Nat)) (c : DimCache) (u : String)
    (d : Nat × Nat) (h : cacheGet c u = some d) :
    get_image_dimensions fetch c u = (d, cacheTouch c u d, false) := by
  unfold get_image_dimensions
  rw [h]

lemma gid_miss (fetch : String → Option (List Nat)) (c : DimCache) (u : String)
    (h : cacheGet c u = none) :
    get_image_dimensions fetch c u =
      (get_image_dimensions_compute fetch u,
        ((u, get_image_dimensions_compute fetch u) :: (c : List (String × (Nat × Nat)))).take 100,
        true) := by
  unfold get_image_dimensions
  rw [h]

lemma cacheGet_after (fetch : String → Option (List Nat)) (c : DimCache) (u : String) :
    cacheGet (get_image_dimensions fetch c u).2.1 u =
      some (get_image_dimensions fetch c u).1 := by
  cases h : cacheGet c u with
  | some d => rw [gid_hit fetch c u d h]; exact cacheGet_touch c u d
  | none => rw [gid_miss fetch c u h]; exact cacheGet_insert c u _

lemma validate_cached_some (fetch : String → Option (List Nat)) (c : DimCache)
    (u : String) (hu : u ≠ "") :
    validate_image_cached fetch c (some u) =
      (decide (MIN_IMAGE_DIMENSION ≤ (get_image_dimensions fetch c u).1.1) &&
        decide (MIN_IMAGE_DIMENSION ≤ (get_image_dimensions fetch c u).1.2),
        (get_image_dimensions fetch c u).2.1, (get_image_dimensions fetch c u).2.2) := by
  simp only [validate_image_cached]
  rw [if_neg hu]

/-- C8: validating the same URL twice against an unchanged network gives the
same boolean both times, and the second call performs no network fetch — it is
answered from the URL-keyed dimension cache. -/
theorem C8_idempotent_cached (fetch : String → Option (List Nat)) (c : DimCache)
    (image_url : Option String) :
    (validate_image_cached fetch (validate_image_cached fetch c image_url).2.1 image_url).1 =
      (validate_image_cached fetch c image_url).1 ∧
    (validate_image_cached fetch (validate_image_cached fetch c image_url).2.1 image_url).2.2 =
      false := by
  cases image_url with
  | none => exact ⟨rfl, rfl⟩
  | some u =>
    by_cases hu : u = ""
    · subst hu
      exact ⟨rfl, rfl⟩
    · rw [validate_cached_some fetch c u hu]
      rw [show ((decide (MIN_IMAGE_DIMENSION ≤ (get_image_dimensions fetch c u).1.1) &&
          decide (MIN_IMAGE_DIMENSION ≤ (get_image_dimensions fetch c u).1.2),
          (get_image_dimensions fetch c u).2.1,
          (get_image_dimensions fetch c u).2.2) :
            Bool × DimCache × Bool).2.1 = (get_image_dimensions fetch c u).2.1 from rfl]
      rw [validate_cached_some fetch (get_image_dimensions fetch c u).2.1 u hu]
      rw [gid_hit fetch (get_image_dimensions fetch c u).2.1 u
        (get_image_dimensions fetch c u).1 (cacheGet_after fetch c u)]
      exact ⟨rfl, rfl⟩

/-- C9: a failed validation attempt (exception or undeterminable dimensions)
stores the `(0, 0)` sentinel in the cache under the URL, so a later validation
of that URL — even against a recovered network `fetch2` — returns false
without fetching. -/
theorem C9_failure_cached (fetch fetch2 : String → Option (List Nat)) (c : DimCache)
    (u : String) (hu : u ≠ "") (hmiss : cacheGet c u = none)
    (hfail : get_image_dimensions_compute fetch u = (0, 0)) :
    (validate_image_cached fetch c (some u)).1 = false ∧
    cacheGet (validate_image_cached fetch c (some u)).2.1 u = some (0, 0) ∧
    (validate_image_cached fetch2 (validate_image_cached fetch c (some u)).2.1 (some u)).1 =
      false ∧
    (validate_image_cached fetch2 (validate_image_cached fetch c (some u)).2.1 (some u)).2.2 =
      false := by
  have hgid : get_image_dimensions fetch c u =
      ((0, 0), ((u, (0, 0)) :: (c : List (String × (Nat × Nat)))).take 100, true) := by
    rw [gid_miss fetch c u hmiss, hfail]
  rw [validate_cached_some fetch c u hu, hgid]
  have hget : cacheGet ((((u, (0, 0)) :: (c : List (String × (Nat × Nat)))).take 100 :
      DimCache)) u = some (0, 0) := cacheGet_insert c u (0, 0)
  refine ⟨rfl, hget, ?_, ?_⟩
  · rw [validate_cached_some fetch2 _ u hu,
      gid_hit fetch2 _ u (0, 0) hget]
    rfl
  · rw [validate_cached_some fetch2 _ u hu,
      gid_hit fetch2 _ u (0, 0) hget]

/-- Witness for C9 at a concrete failing fetch. -/
theorem C9_failure_cached_witness :
    (validate_image_cached (fun _ => none) [] (some "http://img")).1 = false ∧
    cacheGet (validate_image_cached (fun _ => none) [] (some "http://img")).2.1 "http://img" =
      some (0, 0) ∧
    (validate_image_cached (fun _ => some (List.replicate 20000 255))
      (validate_image_cached (fun _ => none) [] (some "http://img")).2.1 (some "http://img")).1 =
      false ∧
    (validate_image_cached (fun _ => some (List.replicate 20000 255))
      (validate_image_cached (fun _ => none) [] (some "http://img")).2.1 (some "http://img")).2.2 =
      false :=
  C9_failure_cached (fun _ => none) (fun _ => some (List.replicate 20000 255)) []
    "http://img" (by decide) rfl rfl

/-! ### Field extractor lemmas -/

lemma anyNonBlank_map_str (xs : List String) :
    anyNonBlank (xs.map PyItem.str) = Except.ok (xs.any fun s => !pyBlank s) := by
  induction xs with
  | nil => rfl
  | cons s rest ih =>
    simp only [List.map_cons, anyNonBlank, List.any_cons]
    by_cases h : pyBlank s
    · rw [if_pos h, ih, h]
      rfl
    · rw [if_neg h]
      simp [Bool.eq_false_iff.mpr h]

lemma anyNonBlank_blank_head (pre : List String) (l : List PyItem)
    (h : ∀ t ∈ pre, pyBlank t = true) :
    anyNonBlank (pre.map PyItem.str ++ l) = anyNonBlank l := by
  induction pre with
  | nil => rfl
  | cons s rest ih =>
    simp only [List.map_cons, List.cons_append, anyNonBlank]
    rw [if_pos (h s (by simp))]
    exact ih fun t ht => h t (by simp [ht])

/-- C5: the Field Extractor maps an outcome to absent exactly when the call
raised, returned a blank string, or returned a string sequence with no
non-blank entry; and the assembled record's fields are each the independent
extraction of their own capability, so one raising capability leaves the
others unaffected and nothing propagates to the caller. -/
theorem C5_extractor_containment (sc : Scraper) (validate : PyValue → Bool)
    (s : String) (xs : List String) :
    extract_recipe_field CapOutcome.raises = none ∧
    (extract_recipe_field (CapOutcome.returns (PyValue.str s)) = none ↔ pyBlank s = true) ∧
    (extract_recipe_field (CapOutcome.returns (PyValue.list (xs.map PyItem.str))) = none ↔
      ∀ t ∈ xs, pyBlank t = true) ∧
    (get_recipe_details validate sc).name = extract_recipe_field sc.title ∧
    (get_recipe_details validate sc).ingredients = extract_recipe_field sc.ingredients ∧
    (get_recipe_details validate sc).instructions = extract_recipe_field sc.instructions := by
  refine ⟨rfl, ?_, ?_, rfl, rfl, rfl⟩
  · simp only [extract_recipe_field]
    by_cases h : pyBlank s
    · simp [h]
    · simp [h]
  · constructor
    · intro hnone t ht
      by_contra hb
      have hany : (xs.any fun t => !pyBlank t) = true :=
        List.any_eq_true.mpr ⟨t, ht, by simp [Bool.eq_false_iff.mpr hb]⟩
      simp only [extract_recipe_field, anyNonBlank_map_str, hany] at hnone
      cases hnone
    · intro hall
      have hany : (xs.any fun t => !pyBlank t) = false := by
        rw [List.any_eq_false]
        intro t ht
        simp [hall t ht]
      simp only [extract_recipe_field, anyNonBlank_map_str, hany]

/-- Witness for C5: `ingredients()` raises while `title()` succeeds — the
record has a present name and an absent ingredients field. -/
theorem C5_extractor_containment_witness :
    (get_recipe_details (fun _ => true)
      { title := CapOutcome.returns (PyValue.str "Cake"),
        ingredients := CapOutcome.raises,
        instructions := CapOutcome.returns (PyValue.str "Mix"),
        image := CapOutcome.raises }).name = some (PyValue.str "Cake") ∧
    (get_recipe_details (fun _ => true)
      { title := CapOutcome.returns (PyValue.str "Cake"),
        ingredients := CapOutcome.raises,
        instructions := CapOutcome.returns (PyValue.str "Mix"),
        image := CapOutcome.raises }).ingredients = none := by
  have h := C5_extractor_containment
    { title := CapOutcome.returns (PyValue.str "Cake"),
      ingredients := CapOutcome.raises,
      instructions := CapOutcome.returns (PyValue.str "Mix"),
      image := CapOutcome.raises } (fun _ => true) "" []
  exact ⟨h.2.2.2.1.trans (by decide), h.2.2.2.2.1.trans h.1⟩

/-- C10 counterexample: a sequence holding a non-string element is returned
whole — not absent — when a non-blank string precedes the non-string element,
because the per-element test short-circuits before reaching it. -/
theorem C10_counterexample :
    extract_recipe_field (CapOutcome.returns (PyValue.list
        [PyItem.str "salt", PyItem.nonStr])) =
      some (PyValue.list [PyItem.str "salt", PyItem.nonStr]) ∧
    extract_recipe_field (CapOutcome.returns (PyValue.list
        [PyItem.str "salt", PyItem.nonStr])) ≠ none := by
  constructor <;> decide

/-- C10 amended: a sequence containing a non-string element is absent exactly
when no non-blank string precedes the first non-string element (the lazy
per-element test then raises on it and the containment converts the field to
absent); when a non-blank string comes first, the whole sequence is returned
and the field is present. -/
theorem C10_amended_short_circuit (pre : List String) (s : String)
    (rest tail2 : List PyItem) (hpre : ∀ t ∈ pre, pyBlank t = true) :
    extract_recipe_field (CapOutcome.returns (PyValue.list
        (pre.map PyItem.str ++ PyItem.nonStr :: rest))) = none ∧
    (pyBlank s = false →
      extract_recipe_field (CapOutcome.returns (PyValue.list
          (pre.map PyItem.str ++ PyItem.str s :: tail2))) =
        some (PyValue.list (pre.map PyItem.str ++ PyItem.str s :: tail2))) := by
  constructor
  · simp only [extract_recipe_field, anyNonBlank_blank_head pre _ hpre, anyNonBlank]
  · intro hs
    simp only [extract_recipe_field, anyNonBlank_blank_head pre _ hpre, anyNonBlank]
    rw [if_neg (by simp [hs])]

/-- Witness for the amended C10: a blank string, then a non-string — absent. -/
theorem C10_amended_short_circuit_witness :
    extract_recipe_field (CapOutcome.returns (PyValue.list
        [PyItem.str " ", PyItem.nonStr, PyItem.str "x"])) = none :=
  (C10_amended_short_circuit [" "] "x" [PyItem.str "x"] [] (by decide)).1

/-! ### Substring machinery for the route's message checks -/

lemma leadsWith_mono (n l l2 : List Char) (h : leadsWith n l = true) :
    leadsWith n (l ++ l2) = true := by
  induction n generalizing l with
  | nil => rfl
  | cons a as ih =>
    cases l with
    | nil => exact absurd h (by simp [leadsWith])
    | cons b bs =>
      simp only [List.cons_append, leadsWith, Bool.and_eq_true] at h ⊢
      exact ⟨h.1, ih bs h.2⟩

lemma hasSub_nil_needle (l : List Char) : hasSub [] l = true := by
  cases l <;> simp [hasSub, leadsWith]

lemma hasSub_mono (n l l2 : List Char) (h : hasSub n l = true) :
    hasSub n (l ++ l2) = true := by
  induction l with
  | nil =>
    cases n with
    | nil => exact hasSub_nil_needle l2
    | cons a as => exact absurd h (by simp [hasSub, leadsWith])
  | cons c cs ih =>
    simp only [List.cons_append, hasSub, Bool.or_eq_true] at h ⊢
    rcases h with h | h
    · exact Or.inl (leadsWith_mono _ _ _ h)
    · exact Or.inr (ih h)

lemma pyIn_wild_mode (e2 : String) :
    pyIn "wild_mode" ("Failed with wild_mode: " ++ e2) = true := by
  show hasSub ("wild_mode".toList) (("Failed with wild_mode: " ++ e2).toList) = true
  have hdata : (("Failed with wild_mode: " ++ e2) : String).toList =
      "Failed with wild_mode: ".toList ++ e2.toList := String.data_append _ _
  rw [hdata]
  exact hasSub_mono _ _ _ (by decide)

/-- C2: the route errors exactly when source construction fails: a strict
failure whose message has the "not supported" condition triggers exactly one
wild-mode retry (and the route's outcome is then the wild outcome, whatever
the wild construction is); any other strict failure is fatal immediately,
independent of the wild outcome; when both fail, the error message marks the
wild-mode attempt; a constructed source always yields a record, never an
error. -/
theorem C2_route_fallback (validate : PyValue → Bool) (strict wild : Except String Scraper) :
    (∀ sc, strict = Except.ok sc →
      scraper_route validate strict wild = Except.ok (get_recipe_details validate sc)) ∧
    (∀ e, strict = Except.error e → pyIn "not supported" e = false →
      ∀ wild2, scraper_route validate strict wild2 = Except.error e) ∧
    (∀ e sc, strict = Except.error e → pyIn "not supported" e = true →
      wild = Except.ok sc →
      scraper_route validate strict wild = Except.ok (get_recipe_details validate sc)) ∧
    (∀ e e2, strict = Except.error e → pyIn "not supported" e = true →
      wild = Except.error e2 →
      scraper_route validate strict wild = Except.error ("Failed with wild_mode: " ++ e2) ∧
        pyIn "wild_mode" ("Failed with wild_mode: " ++ e2) = true) ∧
    ((∃ e3, scraper_route validate strict wild = Except.error e3) ↔
      ∃ e, strict = Except.error e ∧
        (pyIn "not supported" e = false ∨ ∃ e2, wild = Except.error e2)) := by
  refine ⟨?_, ?_, ?_, ?_, ?_⟩
  · rintro sc rfl
    rfl
  · rintro e rfl hpy wild2
    simp only [scraper_route, hpy]
    rfl
  · rintro e sc rfl hpy rfl
    simp only [scraper_route, hpy]
    rfl
  · rintro e e2 rfl hpy rfl
    refine ⟨?_, pyIn_wild_mode e2⟩
    simp only [scraper_route, hpy]
    rfl
  · cases strict with
    | ok sc => simp [scraper_route]
    | error e =>
      by_cases hpy : pyIn "not supported" e = true
      · cases wild with
        | ok sc =>
          simp only [scraper_route, hpy, if_true]
          constructor
          · rintro ⟨e3, h⟩
            cases h
          · rintro ⟨e4, he, hcase⟩
            cases he
            rcases hcase with h | ⟨e2, h⟩
            · rw [hpy] at h
              cases h
            · cases h
        | error e2 =>
          simp only [scraper_route, hpy, if_true]
          exact ⟨fun _ => ⟨e, rfl, Or.inr ⟨e2, rfl⟩⟩, fun _ => ⟨_, rfl⟩⟩
      · have hpy2 : pyIn "not supported" e = false := by
          revert hpy
          cases pyIn "not supported" e <;> simp
        simp only [scraper_route, hpy2]
        exact ⟨fun _ => ⟨e, rfl, Or.inl hpy2⟩, fun _ => ⟨e, by simp⟩⟩

/-- Witness for C2: both strict and wild construction fail. -/
theorem C2_route_fallback_witness :
    scraper_route (fun _ => false) (Except.error "site is not supported")
        (Except.error "404") =
      Except.error ("Failed with wild_mode: " ++ "404") ∧
    pyIn "wild_mode" ("Failed with wild_mode: " ++ "404") = true :=
  (C2_route_fallback (fun _ => false) (Except.error "site is not supported")
    (Except.error "404")).2.2.2.1 "site is not supported" "404" rfl (by decide) rfl

/-! ### The JPEG scan on well-formed marker segment streams -/

lemma skipFF_at_seg (b : List Nat) (n t : Nat) (rest : List Nat)
    (hd : b.drop n = 255 :: t :: rest) (ht : t ≠ 255) :
    skipFF b n = some (t, n + 2) := by
  unfold skipFF
  rw [hd]
  simp [firstNonFF, ht]

lemma read2BE_at (b : List Nat) (n x y : Nat) (rest : List Nat)
    (hd : b.drop n = x :: y :: rest) :
    read2BE b n = some (x * 256 + y, n + 2) := by
  unfold read2BE
  rw [hd]

lemma drop_two (b : List Nat) (n x y : Nat) (rest : List Nat)
    (hd : b.drop n = x :: y :: rest) : b.drop (n + 2) = rest := by
  rw [← List.drop_drop, hd]
  rfl

/-- One full iteration of the marker-scan loop when the stream position points
at a non-fill marker byte pair followed by a length field. -/
lemma jpegLoopF_step (b : List Nat) (f pos : Nat) (size : Int) (n t L1 L2 : Nat)
    (rest : List Nat) (hpos : (pos : Int) + size = (n : Int)) (ht : t ≠ 255)
    (hd : b.drop n = 255 :: t :: L1 :: L2 :: rest) :
    jpegLoopF b (f + 1) pos size =
      if isSOFtype t then
        match read2BE b (n + 2 + 2 + 1), read2BE b (n + 2 + 2 + 3) with
        | some (h, _), some (w, _) => some (w, h)
        | _, _ => none
      else jpegLoopF b f (n + 2 + 2) (((L1 * 256 + L2 : Nat) : Int) - 2) := by
  have htarget : ¬ ((pos : Int) + size < 0) := by omega
  have htn : ((pos : Int) + size).toNat = n := by omega
  have hd2 : b.drop (n + 2) = L1 :: L2 :: rest := drop_two b n 255 t _ hd
  simp only [jpegLoopF, if_neg htarget, htn, skipFF_at_seg b n t _ hd ht,
    read2BE_at b (n + 2) L1 L2 rest hd2]

lemma segsBytes_length (segs : List (Nat × List Nat)) :
    segs.length ≤ (segsBytes segs).length := by
  induction segs with
  | nil => simp [segsBytes]
  | cons seg rest ih =>
    obtain ⟨t, p⟩ := seg
    simp only [segsBytes, segBytes, List.length_append, List.length_cons, List.length_cons]
    omega

/-- The marker scan on a buffer structured as leading non-Start-Of-Frame
segments followed by a Start-Of-Frame segment: it skips every leading segment
and returns the width/height stored in the Start-Of-Frame payload. -/
lemma jpegLoopF_segments :
    ∀ (segs : List (Nat × List Nat)) (front b : List Nat) (f pos : Nat) (size : Int)
      (t prec hh hl wh wl : Nat) (rest2 tail : List Nat),
    b = front ++ (segsBytes segs ++
      (segBytes t (prec :: hh :: hl :: wh :: wl :: rest2) ++ tail)) →
    (pos : Int) + size = (front.length : Int) →
    (∀ s ∈ segs, ¬ isSOFtype s.1 ∧ s.1 ≠ 255) →
    isSOFtype t →
    segs.length + 1 ≤ f →
    jpegLoopF b f pos size = some (wh * 256 + wl, hh * 256 + hl) := by
  intro segs
  induction segs with
  | nil =>
    intro front b f pos size t prec hh hl wh wl rest2 tail hb hpos hsegs ht hfuel
    obtain ⟨f1, rfl⟩ : ∃ f1, f = f1 + 1 := ⟨f - 1, by omega⟩
    have htff : t ≠ 255 := by
      rcases ht with ⟨⟨h1, h2⟩, h3⟩
      omega
    have hX : b = front ++ (segBytes t (prec :: hh :: hl :: wh :: wl :: rest2) ++ tail) := by
      rw [hb]
      simp [segsBytes]
    have hd : b.drop front.length =
        255 :: t :: (((prec :: hh :: hl :: wh :: wl :: rest2).length + 2) / 256) ::
          (((prec :: hh :: hl :: wh :: wl :: rest2).length + 2) % 256) ::
          (prec :: hh :: hl :: wh :: wl :: (rest2 ++ tail)) := by
      rw [hX, List.drop_left]
      simp only [segBytes, List.cons_append]
    rw [jpegLoopF_step b f1 pos size front.length t _ _ _ hpos htff hd, if_pos ht]
    have hd4 : b.drop (front.length + 2 + 2) =
        prec :: hh :: hl :: wh :: wl :: (rest2 ++ tail) :=
      drop_two b (front.length + 2) _ _ _ (drop_two b front.length _ _ _ hd)
    have hd5 : b.drop (front.length + 2 + 2 + 1) =
        hh :: hl :: wh :: wl :: (rest2 ++ tail) := by
      have : b.drop (front.length + 2 + 2 + 1) = (b.drop (front.length + 2 + 2)).drop 1 := by
        rw [List.drop_drop]
      rw [this, hd4]
      rfl
    have hd7 : b.drop (front.length + 2 + 2 + 3) = wh :: wl :: (rest2 ++ tail) := by
      have : b.drop (front.length + 2 + 2 + 3) = (b.drop (front.length + 2 + 2)).drop 3 := by
        rw [List.drop_drop]
      rw [this, hd4]
      rfl
    rw [read2BE_at b _ hh hl _ hd5, read2BE_at b _ wh wl _ hd7]
  | cons seg rest ih =>
    intro front b f pos size t prec hh hl wh wl rest2 tail hb hpos hsegs ht hfuel
    obtain ⟨t0, p0⟩ := seg
    obtain ⟨f1, rfl⟩ : ∃ f1, f = f1 + 1 := ⟨f - 1, by omega⟩
    have h0 := hsegs (t0, p0) (by simp)
    have hX : b = front ++ (segBytes t0 p0 ++ (segsBytes rest ++
        (segBytes t (prec :: hh :: hl :: wh :: wl :: rest2) ++ tail))) := by
      rw [hb]
      simp [segsBytes, List.append_assoc]
    have hd : b.drop front.length =
        255 :: t0 :: ((p0.length + 2) / 256) :: ((p0.length + 2) % 256) ::
          (p0 ++ (segsBytes rest ++
            (segBytes t (prec :: hh :: hl :: wh :: wl :: rest2) ++ tail))) := by
      rw [hX, List.drop_left]
      simp only [segBytes, List.cons_append]
    rw [jpegLoopF_step b f1 pos size front.length t0 _ _ _ hpos h0.2 hd,
      if_neg h0.1]
    have hlen : (p0.length + 2) / 256 * 256 + (p0.length + 2) % 256 = p0.length + 2 := by
      omega
    rw [hlen]
    refine ih (front ++ segBytes t0 p0) b f1 (front.length + 2 + 2)
      (((p0.length + 2 : Nat) : Int) - 2) t prec hh hl wh wl rest2 tail ?_ ?_
      (fun s hs => hsegs s (by simp [hs])) ht (by simpa using hfuel)
    · rw [hX]
      simp [List.append_assoc]
    · simp only [List.length_append, segBytes, List.length_cons]
      push_cast
      omega

/-- C1 counterexample: on this buffer the first marker whose type byte lies in
0xC0–0xCF is 0xC4 (carrying height 300, width 400), so the claim's scan stops
there and yields (400, 300); the code's scan skips 0xC4 and reads the later
0xC0 segment, yielding (700, 600). -/
theorem C1_counterexample :
    jpegScanSpec [255, 216, 255, 196, 0, 7, 8, 1, 44, 1, 144,
        255, 192, 0, 7, 8, 2, 88, 2, 188, 0, 0, 0, 0] = some (400, 300) ∧
    sniffHeader [255, 216, 255, 196, 0, 7, 8, 1, 44, 1, 144,
        255, 192, 0, 7, 8, 2, 88, 2, 188, 0, 0, 0, 0] = (700, 600) := by
  constructor <;> decide

/-- C1 amended: for a JPEG buffer made of marker segments, the scan stops at
the first marker whose type byte lies in 0xC0–0xCF *excluding 0xC4, 0xC8 and
0xCC*, and the returned pair is obtained by reading height then width (two
big-endian 16-bit unsigned integers 1 byte after that marker's length field)
and swapping them back to (width, height). -/
theorem C1_amended (b : List Nat) (segs : List (Nat × List Nat))
    (t prec hh hl wh wl : Nat) (rest2 tail : List Nat)
    (hb : b = [255, 216] ++ segsBytes segs ++
      segBytes t (prec :: hh :: hl :: wh :: wl :: rest2) ++ tail)
    (hlen : 24 ≤ b.length)
    (hsegs : ∀ s ∈ segs, ¬ isSOFtype s.1 ∧ s.1 ≠ 255)
    (ht : isSOFtype t) :
    sniffHeader b = (wh * 256 + wl, hh * 256 + hl) := by
  have hb2 : b = 255 :: 216 :: (segsBytes segs ++
      (segBytes t (prec :: hh :: hl :: wh :: wl :: rest2) ++ tail)) := by
    rw [hb]
    simp [List.append_assoc]
  have hscan : jpegScan b = some (wh * 256 + wl, hh * 256 + hl) := by
    unfold jpegScan
    refine jpegLoopF_segments segs [255, 216] b (b.length + 2) 0 2
      t prec hh hl wh wl rest2 tail (by rw [hb2]; rfl) (by simp) hsegs ht ?_
    have hblen := congrArg List.length hb2
    simp only [List.length_cons, List.length_append] at hblen
    have := segsBytes_length segs
    omega
  have hpng : ¬ (isPngSig b = true) := by
    rw [hb2]
    simp [isPngSig, pngMagic]
  have hgif : ¬ (isGifSig b = true) := by
    rw [hb2]
    simp [isGifSig, gif87, gif89]
  have hjpeg : isJpegSig b = true := by
    rw [hb2]
    simp [isJpegSig]
  unfold sniffHeader
  rw [if_neg (by omega), if_neg hpng, if_neg hgif, if_pos hjpeg, hscan]

/-- Witness for the amended C1: an APP0-style leading segment, then a SOF1
segment carrying height 500 and width 512. -/
theorem C1_amended_witness :
    sniffHeader [255, 216, 255, 224, 0, 6, 1, 2, 3, 4,
        255, 193, 0, 12, 8, 1, 244, 2, 0, 9, 9, 9, 9, 9] = (512, 500) :=
  (C1_amended [255, 216, 255, 224, 0, 6, 1, 2, 3, 4,
      255, 193, 0, 12, 8, 1, 244, 2, 0, 9, 9, 9, 9, 9]
    [(224, [1, 2, 3, 4])] 193 8 1 244 2 0 [9, 9, 9, 9, 9] []
    (by decide) (by decide) (by decide) (by decide)).trans (by decide)
